import Mathlib

/-!
Verification of the thread scheduler core (`src/threads/thread.c`): priority
scheduling with donation, the MLFQS engine, and the sleep/wake queue.  Pure
functions of the C source are embedded as Lean functions; the mutable global
collections (ready list, all-threads list, sleeping list, load average) are
embedded as explicit state records threaded through the operations.  Machine
integers are modelled as `Int` (the quantities involved — priorities, nice
values, tick counts, 17.14 fixed-point raw values — stay far below any
overflow boundary in the scenarios considered).  A `Bool` result component
models "this operation invoked `thread_yield()`"; the context switch itself
is an external collaborator and out of scope.
-/

namespace PintOS

/-- Modelled from the spec: the fixed-point real arithmetic module (its source
is not under `src/`; §2 and §6 of the spec list its operations: from-integer,
to-integer-round-nearest, add, multiply, divide, scale-by-integer,
add-integer).  The conventional 17.14 representation is used: a value is a raw
signed integer counting units of `1 / F` with `F = 2^14`; products and
quotients are computed in wide arithmetic and truncated toward zero as C
integer division does. -/
def F : Int := 16384

/-- Modelled from the spec: `struct real`, a signed fixed-point value. -/
structure real where
  val : Int
deriving DecidableEq

/-- Modelled from the spec: conversion from integer. -/
def int_to_real (n : Int) : real := ⟨n * F⟩

/-- Modelled from the spec: fixed-point addition. -/
def add (x y : real) : real := ⟨x.val + y.val⟩

/-- Modelled from the spec: fixed-point multiplication, truncating toward zero. -/
def multiply (x y : real) : real := ⟨Int.tdiv (x.val * y.val) F⟩

/-- Modelled from the spec: fixed-point division, truncating toward zero. -/
def divide (x y : real) : real := ⟨Int.tdiv (x.val * F) y.val⟩

/-- Modelled from the spec: scaling by an integer. -/
def multiply_by_int (x : real) (n : Int) : real := ⟨x.val * n⟩

/-- Modelled from the spec: division by an integer, truncating toward zero. -/
def divide_by_int (x : real) (n : Int) : real := ⟨Int.tdiv x.val n⟩

/-- Modelled from the spec: adding an integer to a fixed-point value. -/
def add_real_to_int (x : real) (n : Int) : real := ⟨x.val + n * F⟩

/-- Modelled from the spec: conversion to integer, rounding to nearest
(half-units round away from zero, the usual `(x + F/2)/F` idiom). -/
def real_to_int_toward_nearest (x : real) : Int :=
  if 0 ≤ x.val then Int.tdiv (x.val + Int.tdiv F 2) F
  else Int.tdiv (x.val - Int.tdiv F 2) F

/-- Modelled from the spec: `PRI_MIN`, the bottom of the fixed priority range
(the header defining it is not under `src/`; standard value 0). -/
def PRI_MIN : Int := 0

/-- Modelled from the spec: `PRI_MAX`, the top of the fixed priority range
(standard value 63). -/
def PRI_MAX : Int := 63

/-- Thread states, `enum thread_status` (declared in the header; the four
states are named throughout `thread.c`). -/
inductive Status
  | RUNNING
  | READY
  | BLOCKED
  | DYING
deriving DecidableEq

/-- The donation-relevant fields of `struct lock` used by `thread.c`:
`Waiting_threads_max_priority` (read by `lock_cmp_priority` and
`thread_update_priority`). -/
structure LockRec where
  Waiting_threads_max_priority : Int
deriving DecidableEq

/-- The fields of `struct thread` read or written by `thread.c`:
identifier, name, status, scheduling priority (`priority` is the effective
priority, `real_priority` the base one), the MLFQS inputs `nice` and
`recent_cpu`, the owned-locks list used by donation, and the sleep deadline
`waik_up_time` (source spelling). -/
structure Thread where
  tid : Nat
  name : String
  status : Status
  priority : Int
  real_priority : Int
  nice : Int
  recent_cpu : real
  Owned_locks : List LockRec
  waik_up_time : Int
deriving DecidableEq

instance : Inhabited Thread :=
  ⟨{ tid := 0, name := "", status := Status.BLOCKED, priority := 0,
     real_priority := 0, nice := 0, recent_cpu := ⟨0⟩, Owned_locks := [],
     waik_up_time := 0 }⟩

/-- Modelled from the spec: `list_insert_ordered` of the kernel list library
(not under `src/`): walks the sorted list and inserts the new element in
front of the first element `e` for which `less(elem, e)` holds, so the list
stays sorted and an element ties after its equals (the FIFO-among-equals
order §3 describes). -/
def list_insert_ordered {α : Type} (less : α → α → Bool) (a : α) :
    List α → List α
  | [] => [a]
  | y :: ys => if less a y then a :: y :: ys else y :: list_insert_ordered less a ys

/-- Modelled from the spec: `list_sort` of the kernel list library (not under
`src/`): sorts the list into the order induced by `less` (a stable insertion
sort computing the same sorted order as the library's merge sort). -/
def list_sort {α : Type} (less : α → α → Bool) (l : List α) : List α :=
  l.foldr (list_insert_ordered less) []

/-- `ComparePriority` (thread.c:809): orders two threads by descending
effective priority. -/
def ComparePriority (a b : Thread) : Bool := a.priority > b.priority

/-- `lock_cmp_priority` (thread.c:815): orders two locks by descending
maximum waiter priority. -/
def lock_cmp_priority (a b : LockRec) : Bool :=
  a.Waiting_threads_max_priority > b.Waiting_threads_max_priority

/-- `thread_less_waik` (thread.c:754): orders two sleeping threads by
ascending wake-up time. -/
def thread_less_waik (a b : Thread) : Bool := a.waik_up_time < b.waik_up_time

/-- `thread_unblock` (thread.c:272): inserts the thread into the ready list
in `ComparePriority` order and marks it READY.  (In C the inserted node is
the thread object itself, so the list element carries the READY status.)  It
does not dispatch. -/
def thread_unblock (t : Thread) (ready_list : List Thread) : List Thread :=
  list_insert_ordered ComparePriority { t with status := Status.READY } ready_list

/-- A sequence of `thread_unblock` calls starting from an empty ready list. -/
def unblock_all (ts : List Thread) : List Thread :=
  ts.foldl (fun r t => thread_unblock t r) []

/-- `thread_update_priority` (thread.c:836): effective priority becomes the
base `real_priority`, raised to the front of the owned-locks list after
sorting it by `lock_cmp_priority` (descending maximum waiter priority) when
that front is larger.  The sort mutates the stored `Owned_locks` order, as
`list_sort` does in C. -/
def thread_update_priority (t : Thread) : Thread :=
  let max_pri := t.real_priority
  match t.Owned_locks with
  | [] => { t with priority := max_pri }
  | x :: xs =>
      let sorted_locks := list_sort lock_cmp_priority (x :: xs)
      let lock_pri := (sorted_locks.headD x).Waiting_threads_max_priority
      let max_pri := if max_pri < lock_pri then lock_pri else max_pri
      { t with Owned_locks := sorted_locks, priority := max_pri }

/-- `thread_update_priority_mlfqs` (thread.c:656): derives the priority as
`PRI_MAX - round_nearest(recent_cpu / 4) - nice * 2`, then clamps it into
`[PRI_MIN, PRI_MAX]` by the two `if` tests of the source. -/
def thread_update_priority_mlfqs (t : Thread) : Thread :=
  let priority := PRI_MAX -
    real_to_int_toward_nearest (divide_by_int t.recent_cpu 4) - t.nice * 2
  let priority :=
    if priority < PRI_MIN then PRI_MIN
    else if priority > PRI_MAX then PRI_MAX
    else priority
  { t with priority := priority }

/-- `thread_set_priority` (thread.c:371): a no-op under MLFQS; otherwise
records the new base priority and, when the thread owns no locks or the new
base exceeds the old effective priority, overwrites the effective priority
and sets the flag that makes the function call `thread_yield()`.  The `Bool`
result is that flag. -/
def thread_set_priority (thread_mlfqs : Bool) (cur : Thread)
    (new_priority : Int) : Thread × Bool :=
  if thread_mlfqs then (cur, false)
  else
    let old_priority := cur.priority
    let cur1 := { cur with real_priority := new_priority }
    if cur1.Owned_locks.isEmpty || new_priority > old_priority then
      ({ cur1 with priority := new_priority }, true)
    else (cur1, false)

/-- `init_thread` (thread.c:515): the freshly zeroed thread record with the
fields `init_thread` assigns (BLOCKED status, the given name and priority as
both `priority` and `real_priority`, empty owned-locks list; the `memset`
zeroes `nice` and `recent_cpu`).  Registration in the all-threads list is
part of the registry model below; it is order-irrelevant to the claims. -/
def init_thread (name : String) (priority : Int) : Thread :=
  { tid := 0, name := name, status := Status.BLOCKED, priority := priority,
    real_priority := priority, nice := 0, recent_cpu := ⟨0⟩,
    Owned_locks := [], waik_up_time := 0 }

/-- The outcome of `thread_create` that the claims observe: the new thread
record, the ready list after the `thread_unblock` call, and whether the
creator then called `thread_yield()`. -/
structure CreateResult where
  t : Thread
  ready_list : List Thread
  yields : Bool
deriving DecidableEq

/-- `thread_create` (thread.c:198): initializes the thread (tid from
`allocate_tid`, passed in here), under MLFQS copies the creator's
`recent_cpu` and `nice` and derives the priority via
`thread_update_priority_mlfqs`, unblocks the thread into the ready list, and
finally yields exactly when `thread_current()->priority < priority` — the
comparison is against the caller-supplied `priority` argument. -/
def thread_create (thread_mlfqs : Bool) (creator : Thread) (name : String)
    (priority : Int) (tid : Nat) (ready_list : List Thread) : CreateResult :=
  let t := init_thread name priority
  let t := { t with tid := tid }
  let t :=
    if thread_mlfqs then
      thread_update_priority_mlfqs
        { t with recent_cpu := creator.recent_cpu, nice := creator.nice }
    else t
  let ready1 := thread_unblock t ready_list
  { t := { t with status := Status.READY }, ready_list := ready1,
    yields := creator.priority < priority }

/-- `thread_sleep` (thread.c:764): records `current_time + ticks` as the
wake-up time on the current thread and inserts it into the sleeping list in
`thread_less_waik` (ascending deadline) order.  The final `thread_block()`
dispatch is out of scope. -/
def thread_sleep (cur : Thread) (ticks current_time : Int)
    (sleeping_list : List Thread) : List Thread :=
  let cur1 := { cur with waik_up_time := current_time + ticks }
  list_insert_ordered thread_less_waik cur1 sleeping_list

/-- The sleeping-list scan of `thread_tick` (thread.c:155-169): walk the
sleeping list from the front; stop at the first thread whose wake-up time is
still in the future (`current_time < waik_up_time`); unblock and remove every
thread before that point.  Returns (threads unblocked, remaining sleeping
list). -/
def thread_tick_wake (current_time : Int) :
    List Thread → List Thread × List Thread
  | [] => ([], [])
  | thr :: rest =>
      if current_time < thr.waik_up_time then ([], thr :: rest)
      else
        let p := thread_tick_wake current_time rest
        (thr :: p.1, p.2)

/-- The scheduler's global state as `thread.c` keeps it: the system load
average, the all-threads registry, the ready list, the running thread, and
the idle thread.  The C lists link the thread objects themselves; here the
registry `all_list` holds the thread records and `ready_list` holds thread
identifiers into it, so that a field update performed through the registry is
seen by the ready list exactly as the shared C object would be. -/
structure MState where
  load_avg : real
  all_list : List Thread
  ready_list : List Nat
  running : Nat
  idle_tid : Nat
deriving DecidableEq

/-- Dereferencing a thread identifier in the registry (a C pointer
dereference; the default is never reached for identifiers actually present). -/
def thread_lookup (all_list : List Thread) (tid : Nat) : Thread :=
  (all_list.find? (fun t => t.tid = tid)).getD default

/-- The effective priority a ready-list node exposes: the `priority` field of
the thread object the node belongs to. -/
def prioOf (all_list : List Thread) (tid : Nat) : Int :=
  (thread_lookup all_list tid).priority

/-- `thread_donate_priority` (thread.c:821): recomputes the target thread's
priority with `thread_update_priority` and, if that thread is READY, removes
it from the ready list and re-inserts it in `ComparePriority` order computed
from the now-updated priorities. -/
def thread_donate_priority (s : MState) (b : Nat) : MState :=
  let all1 := s.all_list.map (fun u => if u.tid = b then thread_update_priority u else u)
  let ready1 :=
    if (thread_lookup all1 b).status = Status.READY then
      list_insert_ordered (fun x y => prioOf all1 x > prioOf all1 y) b
        (s.ready_list.erase b)
    else s.ready_list
  { s with all_list := all1, ready_list := ready1 }

/-- `get_ready_threads` (thread.c:434): the ready-list size plus 1 when the
running thread is not the idle thread. -/
def get_ready_threads (s : MState) : Int :=
  (s.ready_list.length : Int) + (if s.running ≠ s.idle_tid then 1 else 0)

/-- `thread_try_yeild` (thread.c:726, source spelling): returns immediately
in interrupt context; otherwise yields exactly when the ready list is
nonempty and its front thread's priority exceeds the current thread's.  The
`Bool` result is whether `thread_yield()` was invoked. -/
def thread_try_yeild (intr_context : Bool) (s : MState) : Bool :=
  if intr_context then false
  else
    match s.ready_list with
    | [] => false
    | m :: _ => prioOf s.all_list m > prioOf s.all_list s.running

/-- `thread_update_recent_cpu` (thread.c:709): given the global `load_avg`,
recomputes one thread's `recent_cpu` as
`recent_cpu * (2*load_avg / (2*load_avg + 1)) + nice` in fixed point, then
recomputes that thread's MLFQS priority. -/
def thread_update_recent_cpu (load_avg : real) (t : Thread) : Thread :=
  let old_recent_cpu := t.recent_cpu
  let recent_coff := divide
    (multiply_by_int load_avg 2)
    (add_real_to_int (multiply_by_int load_avg 2) 1)
  thread_update_priority_mlfqs
    { t with recent_cpu := add_real_to_int (multiply old_recent_cpu recent_coff) t.nice }

/-- `thread_update_recent_cpu_and_load_avg` (thread.c:683): the per-second
MLFQS recomputation.  Updates `load_avg` from `get_ready_threads`, then runs
`thread_update_recent_cpu` (which also rederives the priority) over the whole
registry via `thread_foreach` with the already-updated `load_avg`, then
evaluates `thread_try_yeild`.  The `Bool` result is whether that final check
yielded. -/
def thread_update_recent_cpu_and_load_avg (intr_context : Bool) (s : MState) :
    MState × Bool :=
  let ready_threads := get_ready_threads s
  let c59_60 := divide (int_to_real 59) (int_to_real 60)
  let c1_60 := divide (int_to_real 1) (int_to_real 60)
  let la := add (multiply c59_60 s.load_avg)
                (multiply c1_60 (int_to_real ready_threads))
  let s1 := { s with load_avg := la,
                     all_list := s.all_list.map (thread_update_recent_cpu la) }
  (s1, thread_try_yeild intr_context s1)

/-- `thread_set_nice` (thread.c:403): sets the current thread's nice value,
rederives its priority with `thread_update_priority_mlfqs`, and evaluates
`thread_try_yeild`.  The function never consults the `thread_mlfqs` flag
(there is no mode guard), so the flag is an unused parameter here exactly as
the unread global is in C. -/
def thread_set_nice (thread_mlfqs : Bool) (intr_context : Bool) (s : MState)
    (nice : Int) : MState × Bool :=
  let all1 := s.all_list.map (fun t =>
    if t.tid = s.running then thread_update_priority_mlfqs { t with nice := nice }
    else t)
  let s1 := { s with all_list := all1 }
  (s1, thread_try_yeild intr_context s1)

/-- `thread_update_priority_mlfqs_all` (thread.c:789): rederives every
registered thread's MLFQS priority via `thread_foreach` and then re-sorts
the ready list by the now-current priorities — this separate routine, not
the per-second recomputation, is where the ready list gets re-sorted. -/
def thread_update_priority_mlfqs_all (s : MState) : MState :=
  let all1 := s.all_list.map thread_update_priority_mlfqs
  { s with all_list := all1,
           ready_list := list_sort (fun x y => prioOf all1 x > prioOf all1 y)
             s.ready_list }

/-- A concrete thread record used by the witness instantiations: a blocked
thread with the given identifier and priority and quiescent other fields. -/
def mkThread (tid : Nat) (prio : Int) : Thread :=
  { tid := tid, name := "t", status := Status.BLOCKED, priority := prio,
    real_priority := prio, nice := 0, recent_cpu := ⟨0⟩, Owned_locks := [],
    waik_up_time := 0 }

theorem mem_list_insert_ordered {α : Type} (less : α → α → Bool) (a x : α) :
    ∀ l : List α, x ∈ list_insert_ordered less a l ↔ x = a ∨ x ∈ l := by
  intro l
  induction l with
  | nil => simp [list_insert_ordered]
  | cons y ys ih =>
    by_cases h : less a y = true
    · simp only [list_insert_ordered, if_pos h, List.mem_cons]
    · simp only [list_insert_ordered, if_neg h, List.mem_cons, ih]
      tauto

theorem perm_list_insert_ordered {α : Type} (less : α → α → Bool) (a : α) :
    ∀ l : List α, (list_insert_ordered less a l).Perm (a :: l) := by
  intro l
  induction l with
  | nil => simp [list_insert_ordered]
  | cons y ys ih =>
    by_cases h : less a y = true
    · simp [list_insert_ordered, if_pos h]
    · simp only [list_insert_ordered, if_neg h]
      exact (ih.cons y).trans (List.Perm.swap a y ys)

theorem pairwise_list_insert_ordered {α : Type} {less : α → α → Bool}
    (hconn : ∀ u v : α, less u v = true → less v u = false)
    (htrans : ∀ u v w : α, less v u = false → less w v = false → less w u = false)
    (a : α) : ∀ l : List α,
    l.Pairwise (fun u v => less v u = false) →
    (list_insert_ordered less a l).Pairwise (fun u v => less v u = false) := by
  intro l
  induction l with
  | nil => intro _; simp [list_insert_ordered]
  | cons y ys ih =>
    intro hp
    rw [List.pairwise_cons] at hp
    obtain ⟨hy, hys⟩ := hp
    by_cases h : less a y = true
    · simp only [list_insert_ordered, if_pos h]
      refine List.Pairwise.cons ?_ (List.Pairwise.cons hy hys)
      intro z hz
      rcases List.mem_cons.mp hz with rfl | hz'
      · exact hconn a z h
      · exact htrans a y z (hconn a y h) (hy z hz')
    · simp only [list_insert_ordered, if_neg h]
      refine List.Pairwise.cons ?_ (ih hys)
      intro z hz
      rcases (mem_list_insert_ordered less a z ys).mp hz with rfl | hz'
      · exact Bool.not_eq_true _ ▸ h
      · exact hy z hz'

theorem ComparePriority_conn (u v : Thread) (h : ComparePriority u v = true) :
    ComparePriority v u = false := by
  simp only [ComparePriority, decide_eq_true_eq] at h
  simp only [ComparePriority, decide_eq_false_iff_not]
  omega

theorem ComparePriority_trans (u v w : Thread) (h1 : ComparePriority v u = false)
    (h2 : ComparePriority w v = false) : ComparePriority w u = false := by
  simp only [ComparePriority, decide_eq_false_iff_not] at h1 h2 ⊢
  omega

theorem foldl_unblock_pairwise (ts : List Thread) :
    ∀ r : List Thread, r.Pairwise (fun u v => ComparePriority v u = false) →
    (ts.foldl (fun r t => thread_unblock t r) r).Pairwise
      (fun u v => ComparePriority v u = false) := by
  induction ts with
  | nil => intro r hr; simpa using hr
  | cons t ts ih =>
    intro r hr
    simp only [List.foldl_cons]
    exact ih _ (pairwise_list_insert_ordered ComparePriority_conn ComparePriority_trans _ _ hr)

theorem foldl_unblock_perm (ts : List Thread) :
    ∀ r : List Thread,
    (ts.foldl (fun r t => thread_unblock t r) r).Perm
      (ts.map (fun t => { t with status := Status.READY }) ++ r) := by
  induction ts with
  | nil => intro r; simp
  | cons t ts ih =>
    intro r
    simp only [List.foldl_cons, List.map_cons, List.cons_append]
    refine (ih (thread_unblock t r)).trans ?_
    refine (List.Perm.append_left _ (perm_list_insert_ordered ComparePriority _ r)).trans ?_
    exact List.perm_middle

/-- C1: for every sequence of `thread_unblock` calls on threads with pairwise
distinct effective priorities, starting from the empty ready list, the
resulting ready list's front element has strictly greater effective priority
than every other ready thread — priority-ordered insertion keeps the list in
descending order. -/
theorem unblock_front_max (ts : List Thread) (hd : Thread) (tl : List Thread)
    (hdis : (ts.map Thread.priority).Pairwise (fun p q => p ≠ q))
    (hres : unblock_all ts = hd :: tl) :
    ∀ u ∈ tl, hd.priority > u.priority := by
  intro u hu
  have hp : (unblock_all ts).Pairwise (fun u v : Thread => ComparePriority v u = false) :=
    foldl_unblock_pairwise ts [] List.Pairwise.nil
  rw [hres] at hp
  have hge : ComparePriority u hd = false := (List.pairwise_cons.mp hp).1 u hu
  simp only [ComparePriority, decide_eq_false_iff_not] at hge
  have hperm : (unblock_all ts).Perm
      (ts.map (fun t => { t with status := Status.READY })) := by
    have := foldl_unblock_perm ts []
    simpa [unblock_all] using this
  have hpermp : ((unblock_all ts).map Thread.priority).Perm (ts.map Thread.priority) := by
    have := hperm.map Thread.priority
    simpa [List.map_map, Function.comp] using this
  have hdis2 : ((unblock_all ts).map Thread.priority).Pairwise (fun p q => p ≠ q) :=
    (hpermp.pairwise_iff (fun h => Ne.symm h)).mpr hdis
  rw [hres] at hdis2
  simp only [List.map_cons, List.pairwise_cons] at hdis2
  have hne : hd.priority ≠ u.priority :=
    hdis2.1 u.priority (List.mem_map_of_mem Thread.priority hu)
  omega

/-- C1 witness: unblocking threads of priorities 5, 3, 7 puts the
priority-7 thread in front, ahead of the priority-5 one. -/
theorem unblock_front_max_witness :
    (unblock_all [mkThread 1 5, mkThread 2 3, mkThread 3 7]).head?.map Thread.priority
      = some 7 ∧
    ({ mkThread 3 7 with status := Status.READY } : Thread).priority >
      ({ mkThread 1 5 with status := Status.READY } : Thread).priority := by
  constructor
  · decide
  · exact unblock_front_max [mkThread 1 5, mkThread 2 3, mkThread 3 7]
      { mkThread 3 7 with status := Status.READY }
      [{ mkThread 1 5 with status := Status.READY },
       { mkThread 2 3 with status := Status.READY }]
      (by decide) (by decide)
      { mkThread 1 5 with status := Status.READY } (by decide)

theorem lock_cmp_priority_conn (u v : LockRec) (h : lock_cmp_priority u v = true) :
    lock_cmp_priority v u = false := by
  simp only [lock_cmp_priority, decide_eq_true_eq] at h
  simp only [lock_cmp_priority, decide_eq_false_iff_not]
  omega

theorem lock_cmp_priority_trans (u v w : LockRec) (h1 : lock_cmp_priority v u = false)
    (h2 : lock_cmp_priority w v = false) : lock_cmp_priority w u = false := by
  simp only [lock_cmp_priority, decide_eq_false_iff_not] at h1 h2 ⊢
  omega

theorem pairwise_list_sort {α : Type} {less : α → α → Bool}
    (hconn : ∀ u v : α, less u v = true → less v u = false)
    (htrans : ∀ u v w : α, less v u = false → less w v = false → less w u = false)
    (l : List α) :
    (list_sort less l).Pairwise (fun u v => less v u = false) := by
  induction l with
  | nil => simp [list_sort]
  | cons x xs ih =>
    simp only [list_sort, List.foldr_cons] at ih ⊢
    exact pairwise_list_insert_ordered hconn htrans _ _ ih

theorem perm_list_sort {α : Type} (less : α → α → Bool) (l : List α) :
    (list_sort less l).Perm l := by
  induction l with
  | nil => simp [list_sort]
  | cons x xs ih =>
    simp only [list_sort, List.foldr_cons] at ih ⊢
    exact (perm_list_insert_ordered less x _).trans (ih.cons x)

theorem le_foldr_max_lock (init : Int) :
    ∀ l : List LockRec,
    init ≤ l.foldr (fun lk m => max lk.Waiting_threads_max_priority m) init := by
  intro l
  induction l with
  | nil => simp
  | cons x xs ih =>
    simp only [List.foldr_cons]
    exact le_trans ih (le_max_right _ _)

theorem mem_le_foldr_max_lock (init : Int) (lk : LockRec) :
    ∀ l : List LockRec, lk ∈ l →
    lk.Waiting_threads_max_priority ≤
      l.foldr (fun a m => max a.Waiting_threads_max_priority m) init := by
  intro l
  induction l with
  | nil => intro h; simp at h
  | cons x xs ih =>
    intro h
    rcases List.mem_cons.mp h with rfl | h'
    · exact le_max_left _ _
    · exact le_trans (ih h') (le_max_right _ _)

theorem foldr_max_cases_lock (init : Int) :
    ∀ l : List LockRec,
    l.foldr (fun a m => max a.Waiting_threads_max_priority m) init = init ∨
    ∃ lk ∈ l, l.foldr (fun a m => max a.Waiting_threads_max_priority m) init =
      lk.Waiting_threads_max_priority := by
  intro l
  induction l with
  | nil => left; simp
  | cons x xs ih =>
    simp only [List.foldr_cons]
    rcases le_or_lt x.Waiting_threads_max_priority
        (xs.foldr (fun a m => max a.Waiting_threads_max_priority m) init) with h | h
    · rw [max_eq_right h]
      rcases ih with h1 | ⟨lk, hlk, h2⟩
      · left; exact h1
      · right; exact ⟨lk, List.mem_cons_of_mem _ hlk, h2⟩
    · rw [max_eq_left (le_of_lt h)]
      right; exact ⟨x, List.mem_cons_self _ _, rfl⟩

theorem update_priority_eq_foldr (t : Thread) :
    (thread_update_priority t).priority =
      t.Owned_locks.foldr (fun lk m => max lk.Waiting_threads_max_priority m)
        t.real_priority := by
  cases ht : t.Owned_locks with
  | nil => simp [thread_update_priority, ht]
  | cons x xs =>
    have hperm : (list_sort lock_cmp_priority (x :: xs)).Perm (x :: xs) :=
      perm_list_sort lock_cmp_priority (x :: xs)
    obtain ⟨hh, rest, hSr⟩ : ∃ hh rest, list_sort lock_cmp_priority (x :: xs) = hh :: rest := by
      cases hS : list_sort lock_cmp_priority (x :: xs) with
      | nil => rw [hS] at hperm; have := hperm.length_eq; simp at this
      | cons a b => exact ⟨a, b, rfl⟩
    have hsorted := pairwise_list_sort lock_cmp_priority_conn lock_cmp_priority_trans (x :: xs)
    rw [hSr, List.pairwise_cons] at hsorted
    have hrest : ∀ u ∈ rest, u.Waiting_threads_max_priority ≤ hh.Waiting_threads_max_priority := by
      intro u hu
      have := hsorted.1 u hu
      simp only [lock_cmp_priority, decide_eq_false_iff_not] at this
      omega
    have hbound : ∀ lk ∈ x :: xs,
        lk.Waiting_threads_max_priority ≤ hh.Waiting_threads_max_priority := by
      intro lk hlk
      have : lk ∈ hh :: rest := by rw [← hSr]; exact hperm.symm.subset hlk
      rcases List.mem_cons.mp this with rfl | h'
      · exact le_refl _
      · exact hrest lk h'
    have hmem : hh ∈ x :: xs := hperm.subset (by rw [hSr]; exact List.mem_cons_self _ _)
    have hle1 : t.real_priority ≤
        (x :: xs).foldr (fun a m => max a.Waiting_threads_max_priority m) t.real_priority :=
      le_foldr_max_lock _ _
    have hle2 : hh.Waiting_threads_max_priority ≤
        (x :: xs).foldr (fun a m => max a.Waiting_threads_max_priority m) t.real_priority :=
      mem_le_foldr_max_lock _ _ _ hmem
    have hub : (x :: xs).foldr (fun a m => max a.Waiting_threads_max_priority m) t.real_priority ≤
        max t.real_priority hh.Waiting_threads_max_priority := by
      rcases foldr_max_cases_lock t.real_priority (x :: xs) with h1 | ⟨lk, hlk, h2⟩
      · rw [h1]; exact le_max_left _ _
      · rw [h2]; exact le_trans (hbound lk hlk) (le_max_right _ _)
    simp only [thread_update_priority, ht, hSr, List.headD_cons]
    by_cases hlt : t.real_priority < hh.Waiting_threads_max_priority
    · simp only [if_pos hlt]
      rw [max_eq_right (le_of_lt hlt)] at hub
      omega
    · simp only [if_neg hlt]
      rw [max_eq_left (not_lt.mp hlt)] at hub
      omega

/-- C2: `thread_update_priority` sets the effective priority to the maximum of
the base priority and the owned locks' maximum waiter priorities (the fold
starts from the base, so an empty owned-lock set contributes nothing), and
`thread_donate_priority` touches only the target thread: every registered
thread with a different identifier keeps its record — donation is
single-level and in particular does not propagate along a chain A holds L1,
B holds L2 and blocks on L1, C blocks on L2. -/
theorem update_priority_max_and_donation_single_level (t : Thread) (s : MState)
    (b : Nat) (u : Thread) (hu : u ∈ s.all_list) (hne : u.tid ≠ b) :
    (thread_update_priority t).priority =
      t.Owned_locks.foldr (fun lk m => max lk.Waiting_threads_max_priority m)
        t.real_priority
    ∧ u ∈ (thread_donate_priority s b).all_list := by
  constructor
  · exact update_priority_eq_foldr t
  · have himg : (fun v => if v.tid = b then thread_update_priority v else v) u = u := by
      simp [hne]
    have hm := List.mem_map_of_mem
      (fun v => if v.tid = b then thread_update_priority v else v) hu
    rw [himg] at hm
    simpa [thread_donate_priority] using hm

/-- C2 witness: A (tid 1, base 1, elevated to 5 by a waiter of priority 5 on
its lock L1) and B (tid 2, base 5, holding L2 whose top waiter C has
priority 8).  Donating to B raises B to 8 while A's record — in particular
its priority — is untouched. -/
theorem update_priority_max_and_donation_single_level_witness :
    (thread_update_priority { mkThread 2 5 with Owned_locks := [⟨8⟩] }).priority =
      ([⟨8⟩] : List LockRec).foldr (fun lk m => max lk.Waiting_threads_max_priority m) 5
    ∧ ({ mkThread 1 1 with priority := 5, Owned_locks := [⟨5⟩] } : Thread) ∈
        (thread_donate_priority
          { load_avg := ⟨0⟩,
            all_list := [{ mkThread 1 1 with priority := 5, Owned_locks := [⟨5⟩] },
                         { mkThread 2 5 with Owned_locks := [⟨8⟩] }],
            ready_list := [], running := 1, idle_tid := 0 } 2).all_list :=
  update_priority_max_and_donation_single_level
    { mkThread 2 5 with Owned_locks := [⟨8⟩] }
    { load_avg := ⟨0⟩,
      all_list := [{ mkThread 1 1 with priority := 5, Owned_locks := [⟨5⟩] },
                   { mkThread 2 5 with Owned_locks := [⟨8⟩] }],
      ready_list := [], running := 1, idle_tid := 0 } 2
    { mkThread 1 1 with priority := 5, Owned_locks := [⟨5⟩] }
    (by decide) (by decide)

theorem mlfqs_priority_clamp (t : Thread) :
    (thread_update_priority_mlfqs t).priority =
      max PRI_MIN (min PRI_MAX
        (PRI_MAX - real_to_int_toward_nearest (divide_by_int t.recent_cpu 4) -
          2 * t.nice)) := by
  have h2 : PRI_MAX - real_to_int_toward_nearest (divide_by_int t.recent_cpu 4) - 2 * t.nice
      = PRI_MAX - real_to_int_toward_nearest (divide_by_int t.recent_cpu 4) - t.nice * 2 := by
    ring
  rw [h2]
  simp only [thread_update_priority_mlfqs, PRI_MIN, PRI_MAX]
  generalize (63:Int) - real_to_int_toward_nearest (divide_by_int t.recent_cpu 4) - t.nice * 2 = p
  rw [max_def, min_def]
  split_ifs <;> omega

/-- C4: the MLFQS priority recomputation sets the priority to
`PRI_MAX - round_nearest(recent_cpu / 4) - 2 * nice` clamped into
`[PRI_MIN, PRI_MAX]`. -/
theorem mlfqs_priority_formula_clamped (t : Thread) :
    (thread_update_priority_mlfqs t).priority =
      max PRI_MIN (min PRI_MAX
        (PRI_MAX - real_to_int_toward_nearest (divide_by_int t.recent_cpu 4) -
          2 * t.nice)) :=
  mlfqs_priority_clamp t

/-- C3: the per-second MLFQS recomputation sets
`load_avg' = (59/60)*load_avg + (1/60)*ready_count` with
`ready_count = |ready list| + (0 if the running thread is idle else 1)`, and
then gives every registered thread
`recent_cpu' = (2*load_avg' / (2*load_avg' + 1)) * recent_cpu + nice`,
computed with the already-updated `load_avg'` and the fixed-point operations
throughout. -/
theorem mlfqs_per_second_recurrence (s : MState) (i : Bool) (t : Thread)
    (ht : t ∈ s.all_list) :
    (thread_update_recent_cpu_and_load_avg i s).1.load_avg =
      add (multiply (divide (int_to_real 59) (int_to_real 60)) s.load_avg)
          (multiply (divide (int_to_real 1) (int_to_real 60))
            (int_to_real ((s.ready_list.length : Int) +
              (if s.running = s.idle_tid then 0 else 1))))
    ∧ ∃ t' ∈ (thread_update_recent_cpu_and_load_avg i s).1.all_list,
        t'.tid = t.tid ∧ t'.nice = t.nice ∧
        t'.recent_cpu =
          add_real_to_int
            (multiply t.recent_cpu
              (divide
                (multiply_by_int (thread_update_recent_cpu_and_load_avg i s).1.load_avg 2)
                (add_real_to_int
                  (multiply_by_int
                    (thread_update_recent_cpu_and_load_avg i s).1.load_avg 2) 1)))
            t.nice := by
  constructor
  · by_cases h : s.running = s.idle_tid <;>
      simp [thread_update_recent_cpu_and_load_avg, get_ready_threads, h]
  · refine ⟨thread_update_recent_cpu
      (add (multiply (divide (int_to_real 59) (int_to_real 60)) s.load_avg)
           (multiply (divide (int_to_real 1) (int_to_real 60))
             (int_to_real (get_ready_threads s)))) t, ?_, ?_, ?_, ?_⟩
    · simp only [thread_update_recent_cpu_and_load_avg]
      exact List.mem_map_of_mem _ ht
    · simp [thread_update_recent_cpu, thread_update_priority_mlfqs]
    · simp [thread_update_recent_cpu, thread_update_priority_mlfqs]
    · simp [thread_update_recent_cpu_and_load_avg, thread_update_recent_cpu,
        thread_update_priority_mlfqs]

/-- C3 witness: one registered thread (nice 0, `recent_cpu` 0), one ready
thread, running thread not idle. -/
theorem mlfqs_per_second_recurrence_witness :
    (thread_update_recent_cpu_and_load_avg false
      { load_avg := ⟨0⟩, all_list := [mkThread 1 31], ready_list := [2],
        running := 1, idle_tid := 0 }).1.load_avg =
      add (multiply (divide (int_to_real 59) (int_to_real 60)) ⟨0⟩)
          (multiply (divide (int_to_real 1) (int_to_real 60))
            (int_to_real ((([2] : List Nat).length : Int) + (if (1:Nat) = 0 then 0 else 1))))
    ∧ ∃ t' ∈ (thread_update_recent_cpu_and_load_avg false
        { load_avg := ⟨0⟩, all_list := [mkThread 1 31], ready_list := [2],
          running := 1, idle_tid := 0 }).1.all_list,
        t'.tid = (mkThread 1 31).tid ∧ t'.nice = (mkThread 1 31).nice ∧
        t'.recent_cpu =
          add_real_to_int
            (multiply (mkThread 1 31).recent_cpu
              (divide
                (multiply_by_int (thread_update_recent_cpu_and_load_avg false
                  { load_avg := ⟨0⟩, all_list := [mkThread 1 31], ready_list := [2],
                    running := 1, idle_tid := 0 }).1.load_avg 2)
                (add_real_to_int
                  (multiply_by_int (thread_update_recent_cpu_and_load_avg false
                    { load_avg := ⟨0⟩, all_list := [mkThread 1 31], ready_list := [2],
                      running := 1, idle_tid := 0 }).1.load_avg 2) 1)))
            (mkThread 1 31).nice :=
  mlfqs_per_second_recurrence
    { load_avg := ⟨0⟩, all_list := [mkThread 1 31], ready_list := [2],
      running := 1, idle_tid := 0 } false (mkThread 1 31) (by decide)

theorem thread_less_waik_conn (u v : Thread) (h : thread_less_waik u v = true) :
    thread_less_waik v u = false := by
  simp only [thread_less_waik, decide_eq_true_eq] at h
  simp only [thread_less_waik, decide_eq_false_iff_not]
  omega

theorem thread_less_waik_trans (u v w : Thread) (h1 : thread_less_waik v u = false)
    (h2 : thread_less_waik w v = false) : thread_less_waik w u = false := by
  simp only [thread_less_waik, decide_eq_false_iff_not] at h1 h2 ⊢
  omega

theorem thread_tick_wake_subset (now : Int) :
    ∀ l : List Thread,
    (thread_tick_wake now l).1 ⊆ l ∧ (thread_tick_wake now l).2 ⊆ l := by
  intro l
  induction l with
  | nil => simp [thread_tick_wake]
  | cons thr rest ih =>
    by_cases h : now < thr.waik_up_time
    · simp only [thread_tick_wake, if_pos h]
      constructor
      · intro a ha; simp at ha
      · intro a ha; exact ha
    · simp only [thread_tick_wake, if_neg h]
      constructor
      · intro a ha
        rcases List.mem_cons.mp ha with rfl | ha'
        · exact List.mem_cons_self _ _
        · exact List.mem_cons_of_mem _ (ih.1 ha')
      · intro a ha
        exact List.mem_cons_of_mem _ (ih.2 ha)

theorem tick_wake_mem (now : Int) :
    ∀ l : List Thread, l.Pairwise (fun u v => thread_less_waik v u = false) →
    ∀ thr ∈ l,
      (thr ∈ (thread_tick_wake now l).1 ↔ thr.waik_up_time ≤ now) ∧
      (thr ∈ (thread_tick_wake now l).2 ↔ now < thr.waik_up_time) := by
  intro l
  induction l with
  | nil => intro _ thr h; simp at h
  | cons h0 rest ih =>
    intro hp thr hthr
    rw [List.pairwise_cons] at hp
    obtain ⟨hhead, hrest⟩ := hp
    by_cases hlt : now < h0.waik_up_time
    · simp only [thread_tick_wake, if_pos hlt]
      rcases List.mem_cons.mp hthr with rfl | hthr'
      · constructor
        · simp only [List.not_mem_nil, false_iff]; omega
        · simp only [hthr, true_iff]; exact hlt
      · have hw : h0.waik_up_time ≤ thr.waik_up_time := by
          have := hhead thr hthr'
          simp only [thread_less_waik, decide_eq_false_iff_not] at this
          omega
        constructor
        · simp only [List.not_mem_nil, false_iff]; omega
        · simp only [hthr, true_iff]; omega
    · simp only [thread_tick_wake, if_neg hlt]
      rcases List.mem_cons.mp hthr with rfl | hthr'
      · constructor
        · simp only [List.mem_cons, true_or, true_iff]
          omega
        · constructor
          · intro hin
            have hmem : thr ∈ rest := (thread_tick_wake_subset now rest).2 hin
            have := ((ih hrest thr hmem).2).mp hin
            omega
          · intro h'; omega
      · constructor
        · constructor
          · intro hin
            rcases List.mem_cons.mp hin with heq | hin'
            · rw [heq]; omega
            · exact ((ih hrest thr hthr').1).mp hin'
          · intro h'
            exact List.mem_cons_of_mem _ (((ih hrest thr hthr').1).mpr h')
        · exact (ih hrest thr hthr').2

/-- C5: on a sleeping list kept ascending by wake time, the tick scan wakes
exactly the threads whose deadline has passed (`deadline <= now`) and keeps
exactly those whose deadline is still in the future — so a thread that slept
with deadline `d` is unblocked by the first tick with `d <= now` and by no
earlier tick; moreover `thread_sleep` preserves the ascending order and
records `current_time + ticks` as the new entry's deadline, which is what
makes the early-exit scan sound. -/
theorem sleep_wake_exact_deadline (now ticks current_time : Int) (cur : Thread)
    (l : List Thread)
    (hsorted : l.Pairwise (fun u v => thread_less_waik v u = false)) :
    (∀ thr ∈ l,
      (thr ∈ (thread_tick_wake now l).1 ↔ thr.waik_up_time ≤ now) ∧
      (thr ∈ (thread_tick_wake now l).2 ↔ now < thr.waik_up_time))
    ∧ (thread_sleep cur ticks current_time l).Pairwise
        (fun u v => thread_less_waik v u = false)
    ∧ ∃ c ∈ thread_sleep cur ticks current_time l,
        c.waik_up_time = current_time + ticks := by
  refine ⟨tick_wake_mem now l hsorted, ?_, ?_⟩
  · exact pairwise_list_insert_ordered thread_less_waik_conn thread_less_waik_trans _ _ hsorted
  · refine ⟨{ cur with waik_up_time := current_time + ticks }, ?_, rfl⟩
    exact (mem_list_insert_ordered thread_less_waik _ _ l).mpr (Or.inl rfl)

/-- C5 witness: a thread sleeping until tick 100 is not woken by the tick at
99 and is woken by the tick at 100. -/
theorem sleep_wake_exact_deadline_witness :
    (({ mkThread 1 31 with waik_up_time := 100 } : Thread) ∈
        (thread_tick_wake 99 [{ mkThread 1 31 with waik_up_time := 100 }]).1 ↔
      ({ mkThread 1 31 with waik_up_time := 100 } : Thread).waik_up_time ≤ 99)
    ∧ (({ mkThread 1 31 with waik_up_time := 100 } : Thread) ∈
        (thread_tick_wake 100 [{ mkThread 1 31 with waik_up_time := 100 }]).1 ↔
      ({ mkThread 1 31 with waik_up_time := 100 } : Thread).waik_up_time ≤ 100) :=
  ⟨((sleep_wake_exact_deadline 99 0 0 (mkThread 9 0)
      [{ mkThread 1 31 with waik_up_time := 100 }] (by decide)).1 _ (by decide)).1,
   ((sleep_wake_exact_deadline 100 0 0 (mkThread 9 0)
      [{ mkThread 1 31 with waik_up_time := 100 }] (by decide)).1 _ (by decide)).1⟩

/-- C6 counterexample: in MLFQS mode the created thread's derived effective
priority (63: the creator's inherited `recent_cpu` 0 and nice 0 give
`PRI_MAX`) strictly exceeds the creator's effective priority (31), yet
`thread_create` does not yield, because the code compares the caller-supplied
argument (20) — not the derived priority — against the creator's. -/
theorem create_yield_ignores_derived_priority_cex :
    (thread_create true (mkThread 1 31) "new" 20 2 []).t.priority >
      (mkThread 1 31).priority
    ∧ (thread_create true (mkThread 1 31) "new" 20 2 []).yields = false := by
  decide

/-- C6 amended: `thread_create` yields exactly when the caller-supplied
`priority` argument strictly exceeds the creator's effective priority, in
both modes; outside MLFQS mode the argument equals the new thread's
effective priority, so there the preemption-on-create contract holds as
stated. -/
theorem create_yield_uses_argument_priority (thread_mlfqs : Bool) (creator : Thread)
    (name : String) (priority : Int) (tid : Nat) (ready_list : List Thread) :
    ((thread_create thread_mlfqs creator name priority tid ready_list).yields =
      decide (creator.priority < priority))
    ∧ (thread_mlfqs = false →
        (thread_create thread_mlfqs creator name priority tid ready_list).t.priority =
          priority) := by
  constructor
  · simp [thread_create]
  · intro h
    subst h
    simp [thread_create, init_thread]

/-- C6 amended witness: a creator of priority 31 creating at argument
priority 40 (outside MLFQS mode). -/
theorem create_yield_uses_argument_priority_witness :
    ((thread_create false (mkThread 1 31) "new" 40 2 []).yields =
      decide ((mkThread 1 31).priority < 40))
    ∧ (false = false →
        (thread_create false (mkThread 1 31) "new" 40 2 []).t.priority = 40) :=
  create_yield_uses_argument_priority false (mkThread 1 31) "new" 40 2 []

/-- C7 counterexample: a running thread of effective priority 31 holding no
locks lowers its priority to 10 — the effective priority drops, and
`thread_set_priority` does call `thread_yield()` (the flag is set because the
owned-locks list is empty), contradicting the claim that lowering forces no
yield. -/
theorem set_priority_lower_yields_cex :
    (thread_set_priority false (mkThread 1 31) 10).1.priority <
      (mkThread 1 31).priority
    ∧ (thread_set_priority false (mkThread 1 31) 10).2 = true := by
  decide

/-- C7 amended: outside MLFQS mode `thread_set_priority` yields exactly when
the thread owns no locks or the new base exceeds the old effective priority.
In particular, whenever the effective priority is actually lowered (no locks
owned, smaller new base) a yield IS forced; no yield happens only when the
thread owns locks and the new base does not exceed the old effective
priority, in which case the effective priority is left unchanged. -/
theorem set_priority_yield_characterization (cur : Thread) (new_priority : Int) :
    ((thread_set_priority false cur new_priority).2 = true ↔
      (cur.Owned_locks = [] ∨ new_priority > cur.priority))
    ∧ (cur.Owned_locks = [] →
        (thread_set_priority false cur new_priority).1.priority = new_priority ∧
        (thread_set_priority false cur new_priority).2 = true)
    ∧ (cur.Owned_locks ≠ [] → new_priority ≤ cur.priority →
        (thread_set_priority false cur new_priority).1.priority = cur.priority ∧
        (thread_set_priority false cur new_priority).2 = false) := by
  cases hOL : cur.Owned_locks with
  | nil =>
    refine ⟨?_, ?_, ?_⟩
    · simp [thread_set_priority, hOL]
    · intro _
      simp [thread_set_priority, hOL]
    · intro h _
      exact absurd rfl h
  | cons a as =>
    by_cases hgt : new_priority > cur.priority
    · refine ⟨?_, ?_, ?_⟩
      · simp [thread_set_priority, hOL, hgt]
      · intro h
        exact (List.cons_ne_nil a as (hOL ▸ h)).elim
      · intro _ hle
        omega
    · refine ⟨?_, ?_, ?_⟩
      · simp [thread_set_priority, hOL, hgt]
      · intro h
        exact (List.cons_ne_nil a as (hOL ▸ h)).elim
      · intro _ _
        simp [thread_set_priority, hOL, hgt]

/-- C7 amended witness: holding one lock and not exceeding the old effective
priority, `thread_set_priority` keeps the effective priority and does not
yield. -/
theorem set_priority_yield_characterization_witness :
    ((thread_set_priority false { mkThread 1 31 with Owned_locks := [⟨5⟩] } 10).2 = true ↔
      (({ mkThread 1 31 with Owned_locks := [⟨5⟩] } : Thread).Owned_locks = [] ∨
        (10:Int) > ({ mkThread 1 31 with Owned_locks := [⟨5⟩] } : Thread).priority))
    ∧ (({ mkThread 1 31 with Owned_locks := [⟨5⟩] } : Thread).Owned_locks = [] →
        (thread_set_priority false { mkThread 1 31 with Owned_locks := [⟨5⟩] } 10).1.priority = 10 ∧
        (thread_set_priority false { mkThread 1 31 with Owned_locks := [⟨5⟩] } 10).2 = true)
    ∧ (({ mkThread 1 31 with Owned_locks := [⟨5⟩] } : Thread).Owned_locks ≠ [] →
        (10:Int) ≤ ({ mkThread 1 31 with Owned_locks := [⟨5⟩] } : Thread).priority →
        (thread_set_priority false { mkThread 1 31 with Owned_locks := [⟨5⟩] } 10).1.priority =
          ({ mkThread 1 31 with Owned_locks := [⟨5⟩] } : Thread).priority ∧
        (thread_set_priority false { mkThread 1 31 with Owned_locks := [⟨5⟩] } 10).2 = false) :=
  set_priority_yield_characterization { mkThread 1 31 with Owned_locks := [⟨5⟩] } 10

/-- C8 counterexample: registry with threads 1 (nice 20) and 2 (nice 0), both
READY with `recent_cpu` 0, running thread 3 not idle, ready list [1, 2].  The
per-second recomputation drops thread 1's priority to 18 and raises thread
2's to 63, yet leaves the ready list as [1, 2]: the front element no longer
has the maximum now-current priority, so the ready collection is NOT
re-sorted before the outranked-yield check. -/
theorem per_second_update_no_resort_cex :
    ((thread_update_recent_cpu_and_load_avg false
      { load_avg := ⟨0⟩,
        all_list := [{ mkThread 1 63 with nice := 20 }, mkThread 2 0, mkThread 3 31],
        ready_list := [1, 2], running := 3, idle_tid := 0 }).1.ready_list = [1, 2])
    ∧ prioOf (thread_update_recent_cpu_and_load_avg false
        { load_avg := ⟨0⟩,
          all_list := [{ mkThread 1 63 with nice := 20 }, mkThread 2 0, mkThread 3 31],
          ready_list := [1, 2], running := 3, idle_tid := 0 }).1.all_list 1 <
      prioOf (thread_update_recent_cpu_and_load_avg false
        { load_avg := ⟨0⟩,
          all_list := [{ mkThread 1 63 with nice := 20 }, mkThread 2 0, mkThread 3 31],
          ready_list := [1, 2], running := 3, idle_tid := 0 }).1.all_list 2 := by
  decide

/-- C8 amended: the per-second MLFQS recomputation updates every registered
thread's `recent_cpu` and priority and then evaluates the outranked-yield
check directly on the UNCHANGED ready list (no re-sort happens in this path;
the re-sort by current priorities lives in the separate
`thread_update_priority_mlfqs_all` routine).  The check yields nothing in
interrupt context, nothing on an empty ready list, and otherwise yields
exactly when the stale front element's now-current priority strictly exceeds
the running thread's. -/
theorem per_second_update_ready_frame_and_yield (i : Bool) (s : MState) :
    ((thread_update_recent_cpu_and_load_avg i s).1.ready_list = s.ready_list)
    ∧ ((thread_update_recent_cpu_and_load_avg i s).1.running = s.running)
    ∧ ((thread_update_recent_cpu_and_load_avg i s).2 =
        thread_try_yeild i (thread_update_recent_cpu_and_load_avg i s).1)
    ∧ (i = true → (thread_update_recent_cpu_and_load_avg i s).2 = false)
    ∧ (i = false → s.ready_list = [] →
        (thread_update_recent_cpu_and_load_avg i s).2 = false)
    ∧ (∀ m tl, i = false → s.ready_list = m :: tl →
        ((thread_update_recent_cpu_and_load_avg i s).2 = true ↔
          prioOf (thread_update_recent_cpu_and_load_avg i s).1.all_list m >
            prioOf (thread_update_recent_cpu_and_load_avg i s).1.all_list s.running)) := by
  refine ⟨rfl, rfl, rfl, ?_, ?_, ?_⟩
  · intro h
    subst h
    simp [thread_update_recent_cpu_and_load_avg, thread_try_yeild]
  · intro hi hr
    subst hi
    simp [thread_update_recent_cpu_and_load_avg, thread_try_yeild, hr]
  · intro m tl hi hr
    subst hi
    simp [thread_update_recent_cpu_and_load_avg, thread_try_yeild, hr]

/-- C8 amended witness: the counterexample state — the check is evaluated on
the stale front (tid 1, now-current priority 18) against the running thread
(tid 3, now-current priority 63), so it yields iff 18 > 63. -/
theorem per_second_update_ready_frame_and_yield_witness :
    ((thread_update_recent_cpu_and_load_avg false
      { load_avg := ⟨0⟩,
        all_list := [{ mkThread 1 63 with nice := 20 }, mkThread 2 0, mkThread 3 31],
        ready_list := [1, 2], running := 3, idle_tid := 0 }).2 = true ↔
      prioOf (thread_update_recent_cpu_and_load_avg false
        { load_avg := ⟨0⟩,
          all_list := [{ mkThread 1 63 with nice := 20 }, mkThread 2 0, mkThread 3 31],
          ready_list := [1, 2], running := 3, idle_tid := 0 }).1.all_list 1 >
        prioOf (thread_update_recent_cpu_and_load_avg false
          { load_avg := ⟨0⟩,
            all_list := [{ mkThread 1 63 with nice := 20 }, mkThread 2 0, mkThread 3 31],
            ready_list := [1, 2], running := 3, idle_tid := 0 }).1.all_list 3) :=
  (per_second_update_ready_frame_and_yield false
    { load_avg := ⟨0⟩,
      all_list := [{ mkThread 1 63 with nice := 20 }, mkThread 2 0, mkThread 3 31],
      ready_list := [1, 2], running := 3, idle_tid := 0 }).2.2.2.2.2 1 [2] rfl rfl

/-- C9 counterexample: a thread with base priority 31, no locks, `recent_cpu`
0 calls `thread_set_nice 20` — its effective priority becomes 23 while its
base stays 31, so `effective >= base` fails, and it fails with an empty
owned-locks set, refuting the claimed reachable-state invariant (set_nice is
one of the listed operations). -/
theorem set_nice_breaks_base_bound_cex :
    (((thread_set_nice true false
        { load_avg := ⟨0⟩, all_list := [mkThread 1 31], ready_list := [],
          running := 1, idle_tid := 0 } 20).1.all_list.headD default).priority <
      ((thread_set_nice true false
        { load_avg := ⟨0⟩, all_list := [mkThread 1 31], ready_list := [],
          running := 1, idle_tid := 0 } 20).1.all_list.headD default).real_priority)
    ∧ ((thread_set_nice true false
        { load_avg := ⟨0⟩, all_list := [mkThread 1 31], ready_list := [],
          running := 1, idle_tid := 0 } 20).1.all_list.headD default).Owned_locks = [] := by
  decide

/-- C9 amended: the invariant `effective_priority >= base_priority`, with
equality whenever the owned-locks set is empty, is preserved by the donation
protocol's own operations — `thread_set_priority` (outside MLFQS mode) and
`thread_update_priority` establish it unconditionally on their result — but
the MLFQS derivation operations (`thread_set_nice`, the per-second
recomputation, MLFQS create) overwrite the effective priority with the
derived value without consulting the base, and can therefore drop it below
the base. -/
theorem donation_ops_preserve_base_bound (cur t : Thread) (new_priority : Int) :
    ((thread_set_priority false cur new_priority).1.priority ≥
        (thread_set_priority false cur new_priority).1.real_priority
      ∧ ((thread_set_priority false cur new_priority).1.Owned_locks = [] →
          (thread_set_priority false cur new_priority).1.priority =
            (thread_set_priority false cur new_priority).1.real_priority))
    ∧ ((thread_update_priority t).priority ≥ (thread_update_priority t).real_priority
      ∧ ((thread_update_priority t).Owned_locks = [] →
          (thread_update_priority t).priority =
            (thread_update_priority t).real_priority)) := by
  constructor
  · cases hOL : cur.Owned_locks with
    | nil =>
      constructor
      · simp [thread_set_priority, hOL]
      · intro _
        simp [thread_set_priority, hOL]
    | cons a as =>
      by_cases hgt : new_priority > cur.priority
      · constructor
        · simp [thread_set_priority, hOL, hgt]
        · intro _
          simp [thread_set_priority, hOL, hgt]
      · constructor
        · simp only [thread_set_priority, hOL, hgt]
          simp [hgt]
          omega
        · intro h
          simp [thread_set_priority, hOL, hgt] at h
  · cases hOL : t.Owned_locks with
    | nil =>
      constructor
      · simp [thread_update_priority, hOL]
      · intro _
        simp [thread_update_priority, hOL]
    | cons x xs =>
      have hperm : (list_sort lock_cmp_priority (x :: xs)).Perm (x :: xs) :=
        perm_list_sort lock_cmp_priority (x :: xs)
      have hne : list_sort lock_cmp_priority (x :: xs) ≠ [] := by
        intro h0
        have := hperm.length_eq
        rw [h0] at this
        simp at this
      constructor
      · have he := update_priority_eq_foldr t
        rw [hOL] at he
        have hreal : (thread_update_priority t).real_priority = t.real_priority := by
          simp [thread_update_priority, hOL]
        rw [he, hreal]
        exact le_foldr_max_lock _ _
      · intro h
        have hlocks : (thread_update_priority t).Owned_locks =
            list_sort lock_cmp_priority (x :: xs) := by
          simp [thread_update_priority, hOL]
        rw [hlocks] at h
        exact absurd h hne

/-- C9 amended witness: concrete instantiation at a lock-holding thread and a
lock-free one. -/
theorem donation_ops_preserve_base_bound_witness :
    ((thread_set_priority false (mkThread 1 31) 10).1.priority ≥
        (thread_set_priority false (mkThread 1 31) 10).1.real_priority
      ∧ ((thread_set_priority false (mkThread 1 31) 10).1.Owned_locks = [] →
          (thread_set_priority false (mkThread 1 31) 10).1.priority =
            (thread_set_priority false (mkThread 1 31) 10).1.real_priority))
    ∧ ((thread_update_priority { mkThread 2 5 with Owned_locks := [⟨8⟩] }).priority ≥
          (thread_update_priority { mkThread 2 5 with Owned_locks := [⟨8⟩] }).real_priority
      ∧ ((thread_update_priority { mkThread 2 5 with Owned_locks := [⟨8⟩] }).Owned_locks = [] →
          (thread_update_priority { mkThread 2 5 with Owned_locks := [⟨8⟩] }).priority =
            (thread_update_priority { mkThread 2 5 with Owned_locks := [⟨8⟩] }).real_priority)) :=
  donation_ops_preserve_base_bound (mkThread 1 31) { mkThread 2 5 with Owned_locks := [⟨8⟩] } 10

/-- C10: `thread_set_nice` behaves identically whatever the MLFQS mode flag
is (there is no mode guard): it sets the running thread's nice value,
overwrites its effective priority with the MLFQS derivation (discarding any
donated or explicitly set priority — the result depends only on `recent_cpu`
and the new nice), and then runs the outranked-yield check, which is skipped
entirely in interrupt context. -/
theorem set_nice_unguarded_mlfqs_derivation (m1 m2 i : Bool) (s : MState) (n : Int)
    (t : Thread) (ht : t ∈ s.all_list) (hrun : t.tid = s.running) :
    thread_set_nice m1 i s n = thread_set_nice m2 i s n
    ∧ thread_update_priority_mlfqs { t with nice := n } ∈
        (thread_set_nice m1 i s n).1.all_list
    ∧ (thread_update_priority_mlfqs { t with nice := n }).nice = n
    ∧ (thread_update_priority_mlfqs { t with nice := n }).priority =
        max PRI_MIN (min PRI_MAX
          (PRI_MAX - real_to_int_toward_nearest (divide_by_int t.recent_cpu 4) - 2 * n))
    ∧ (i = true → (thread_set_nice m1 i s n).2 = false)
    ∧ (i = false →
        (thread_set_nice m1 i s n).2 = thread_try_yeild false (thread_set_nice m1 i s n).1) := by
  refine ⟨rfl, ?_, ?_, ?_, ?_, ?_⟩
  · simp only [thread_set_nice]
    refine List.mem_map.mpr ⟨t, ht, ?_⟩
    simp [hrun]
  · simp [thread_update_priority_mlfqs]
  · have := mlfqs_priority_clamp { t with nice := n }
    simpa using this
  · intro h
    subst h
    simp [thread_set_nice, thread_try_yeild]
  · intro h
    subst h
    rfl

/-- C10 witness: the running thread (base 31, no MLFQS mode active) gets
nice 20 and ends with derived priority 23. -/
theorem set_nice_unguarded_mlfqs_derivation_witness :
    thread_set_nice false false
      { load_avg := ⟨0⟩, all_list := [mkThread 1 31], ready_list := [],
        running := 1, idle_tid := 0 } 20 =
      thread_set_nice true false
        { load_avg := ⟨0⟩, all_list := [mkThread 1 31], ready_list := [],
          running := 1, idle_tid := 0 } 20
    ∧ thread_update_priority_mlfqs { mkThread 1 31 with nice := 20 } ∈
        (thread_set_nice false false
          { load_avg := ⟨0⟩, all_list := [mkThread 1 31], ready_list := [],
            running := 1, idle_tid := 0 } 20).1.all_list
    ∧ (thread_update_priority_mlfqs { mkThread 1 31 with nice := 20 }).nice = 20
    ∧ (thread_update_priority_mlfqs { mkThread 1 31 with nice := 20 }).priority =
        max PRI_MIN (min PRI_MAX
          (PRI_MAX - real_to_int_toward_nearest (divide_by_int (mkThread 1 31).recent_cpu 4) -
            2 * 20))
    ∧ (false = true → (thread_set_nice false false
        { load_avg := ⟨0⟩, all_list := [mkThread 1 31], ready_list := [],
          running := 1, idle_tid := 0 } 20).2 = false)
    ∧ (false = false → (thread_set_nice false false
        { load_avg := ⟨0⟩, all_list := [mkThread 1 31], ready_list := [],
          running := 1, idle_tid := 0 } 20).2 =
        thread_try_yeild false (thread_set_nice false false
          { load_avg := ⟨0⟩, all_list := [mkThread 1 31], ready_list := [],
            running := 1, idle_tid := 0 } 20).1) :=
  set_nice_unguarded_mlfqs_derivation false true false
    { load_avg := ⟨0⟩, all_list := [mkThread 1 31], ready_list := [],
      running := 1, idle_tid := 0 } 20 (mkThread 1 31) (by decide) (by decide)

end PintOS
